import Mathlib

/-!
# Verification of the Abby flag / A-B-test resolution engine

Shallow embedding of the class `Abby` from `src/packages/core/src/index.ts`.

Modelling conventions:
* JS objects / `Map`s keyed by strings become association lists
  (`List (String × α)`); assignment keeps the position of an existing key
  and appends a new one, as JS objects and `Map.set` do.
* The ambient `process.env.NODE_ENV` becomes the state field `nodeEnv`.
* The injected `PersistentStorage` values become `Option (List (String × String))`:
  `none` means no storage was injected, `some st` is the storage's contents.
* The random source used by the weighted selector becomes an explicit
  injected stream `rand` of draw values (one consumed per selection), each
  meant to lie in `[0, totalWeight)` as spec 4.4 words it.  Numeric weights
  and draws are modelled over `Int`: no claim depends on the numeric domain,
  and `Int` keeps every definition kernel-computable for concrete witnesses.
* The JS string helpers (cookie splitting, trimming, startsWith, replace)
  are defined structurally over `List Char` so they compute by reduction;
  `String` is its list of characters here.
* Listeners have no observable behaviour beyond receiving a snapshot, so the
  listener set is modelled by its size (`listeners : Nat`) and a notification
  is modelled by the list of snapshots delivered, in order.
* A thrown exception (destructuring `undefined`, invalid selector weights)
  is modelled by `none` in an `Option`-valued result.
* In the source, `this.#data.tests` is initialised to the very object
  `config.tests` (and `responseToLocalData` folds over `this.config.tests`),
  so the engine's test map and the config's test map are one mutable object.
  The model therefore keeps a single `data.tests` field for both.
* The unused fields `testDevtoolOverrides` / `flagDevtoolOverrides` and the
  `dataInitialized` flag (only read by `getProjectDataAsync`) are omitted, as
  is the `debug` logger, none of which affect resolution.
-/

/-- Association-list lookup: first binding wins (models JS object / `Map` lookup,
`undefined` becoming `none`). -/
def lookupA {α : Type} : List (String × α) → String → Option α
  | [], _ => none
  | (k, v) :: rest, key => if k = key then some v else lookupA rest key

/-- Association-list assignment: replaces the value in place when the key is
present (keeping its position, as JS object / `Map` assignment does), appends
a new binding otherwise. -/
def setA {α : Type} : List (String × α) → String → α → List (String × α)
  | [], key, v => [(key, v)]
  | (k, w) :: rest, key, v =>
      if k = key then (k, v) :: rest else (k, w) :: setA rest key v

/-- `ABConfig` from index.ts: the static declaration of one test. -/
structure ABConfig where
  variants : List String
  deriving DecidableEq

/-- The `flags` part of `Settings` from index.ts.  The optional-chaining layers
(`settings?.flags?.…`) are flattened into the leaf `Option`s, which is
observationally identical in every use site. -/
structure FlagSettings where
  devDefault : Option Bool := none
  default : Option Bool := none
  devOverrides : List (String × Bool) := []
  deriving DecidableEq

/-- `Settings` from index.ts. -/
structure Settings where
  flags : FlagSettings := {}
  deriving DecidableEq

/-- `AbbyConfig` from index.ts (the fields the engine's resolution logic reads;
`apiUrl`, `currentEnvironment` and `debug` are only passed to the HTTP layer /
logger and are omitted). -/
structure AbbyConfig where
  projectId : String
  flags : List String := []
  tests : List (String × ABConfig) := []
  settings : Settings := {}
  deriving DecidableEq

/-- One entry of `LocalData.tests` from index.ts: the static `ABConfig`
plus the optional fields added at runtime. -/
structure TestEntry where
  variants : List String
  weights : Option (List Int) := none
  selectedVariant : Option String := none
  deriving DecidableEq

/-- `LocalData` from index.ts.  A flag bound to `none` models the `null`
the constructor stores before any snapshot arrives. -/
structure LocalData where
  tests : List (String × TestEntry)
  flags : List (String × Option Bool)
  deriving DecidableEq

/-- `AbbyDataResponse` (the remote snapshot): lists of `{name, weights}` and
`{name, isEnabled}` records, modelled as pairs. -/
structure AbbyDataResponse where
  tests : List (String × List Int) := []
  flags : List (String × Bool) := []
  deriving DecidableEq

/-- The entire mutable state of one `Abby` instance. -/
structure AbbyState where
  config : AbbyConfig
  nodeEnv : String
  data : LocalData
  flagOverrides : List (String × Bool) := []
  testOverrides : List (String × String) := []
  persistantTestStorage : Option (List (String × String)) := none
  persistantFlagStorage : Option (List (String × String)) := none
  listeners : Nat := 0
  rand : List Int := []
  deriving DecidableEq

/-- The constructor of `Abby`: every declared flag is bound to `null`
(`none` here) and the test map starts as the declared `config.tests`. -/
def AbbyState.new (config : AbbyConfig)
    (persistantTestStorage persistantFlagStorage : Option (List (String × String)))
    (nodeEnv : String) (rand : List Int) : AbbyState :=
  { config := config
    nodeEnv := nodeEnv
    data :=
      { flags := config.flags.foldl (fun acc flag => setA acc flag none) []
        tests := config.tests.map (fun t => (t.1, { variants := t.2.variants })) }
    persistantTestStorage := persistantTestStorage
    persistantFlagStorage := persistantFlagStorage
    rand := rand }

/-- Modelled from the spec: `ABBY_AB_STORAGE_PREFIX` is imported from the
`shared` package, which is not under src/; spec sections 4.5 / 6 / 8 give the
cookie-name shape and the section-8 example fixes the literal. -/
def ABBY_AB_STORAGE_KEY : String := "abby-ab-"

/-- Modelled from the spec: `ABBY_FF_STORAGE_PREFIX` from the `shared`
package, which is not under src/ (see `ABBY_AB_STORAGE_KEY`). -/
def ABBY_FF_STORAGE_KEY : String := "abby-ff-"

/-- Splits a character list on a separator (the pieces, in order, without the
separator). -/
def splitOnChar (sep : Char) : List Char → List (List Char)
  | [] => [[]]
  | c :: rest =>
    let r := splitOnChar sep rest
    if c = sep then [] :: r
    else
      match r with
      | [] => [[c]]
      | p :: ps => (c :: p) :: ps

/-- Strips leading and trailing whitespace from a character list. -/
def trimChList (l : List Char) : List Char :=
  ((l.dropWhile Char.isWhitespace).reverse.dropWhile Char.isWhitespace).reverse

/-- Splits a character list at its first `=` into name and value; `none` when
no `=` occurs (a malformed cookie entry). -/
def splitAtFirstEq : List Char → Option (List Char × List Char)
  | [] => none
  | c :: rest =>
    if c = '=' then some ([], rest)
    else (splitAtFirstEq rest).map (fun p => (c :: p.1, p.2))

/-- Is the first list a prefix of the second? -/
def listIsPrefixCh : List Char → List Char → Bool
  | [], _ => true
  | _ :: _, [] => false
  | a :: as, b :: bs => a == b && listIsPrefixCh as bs

/-- JS `String.prototype.startsWith`. -/
def strStartsWith (s pre : String) : Bool :=
  listIsPrefixCh pre.data s.data

/-- Removes the first occurrence of `pat` from a character list (no change
when `pat` does not occur, as with JS `replace`). -/
def dropOccCh (pat : List Char) : List Char → List Char
  | [] => []
  | c :: rest =>
    if listIsPrefixCh pat (c :: rest) then List.drop pat.length (c :: rest)
    else c :: dropOccCh pat rest

/-- JS `String.prototype.replace` with a string pattern and empty
replacement: removes the first occurrence of `pat` from `s`. -/
def replaceFirst (s pat : String) : String :=
  String.mk (dropOccCh pat.data s.data)

/-- Modelled from the spec: `parseCookies` lives in
`src/packages/core/src/helpers.ts`, which is not under src/.  Spec 4.5: split
the cookie string on `;`, trim each entry, split an entry at the first `=`
into name and value, skip malformed (`=`-less) entries; a later duplicate
name overwrites an earlier one. -/
def parseCookies (cookies : String) : List (String × String) :=
  (splitOnChar ';' cookies.data).foldl
    (fun acc entry =>
      match splitAtFirstEq (trimChList entry) with
      | none => acc
      | some (n, v) => setA acc (String.mk (trimChList n)) (String.mk (trimChList v)))
    []

/-- One iteration of the `forEach` in `setLocalOverrides`: the two
(non-exclusive) `startsWith` branches of the source. -/
def applyCookieEntry (s : AbbyState) (nv : String × String) : AbbyState :=
  let s1 :=
    if strStartsWith nv.1 ABBY_AB_STORAGE_KEY then
      { s with
        testOverrides :=
          setA s.testOverrides
            (replaceFirst nv.1 (ABBY_AB_STORAGE_KEY ++ s.config.projectId ++ "_")) nv.2 }
    else s
  if strStartsWith nv.1 ABBY_FF_STORAGE_KEY then
    { s1 with
      flagOverrides :=
        setA s1.flagOverrides
          (replaceFirst nv.1 (ABBY_FF_STORAGE_KEY ++ s1.config.projectId ++ "_"))
          (nv.2 == "true") }
  else s1

/-- `Abby.setLocalOverrides`: parse the cookie string and ingest every entry.
Note the source does not notify listeners here. -/
def setLocalOverrides (s : AbbyState) (cookies : String) : AbbyState :=
  (parseCookies cookies).foldl applyCookieEntry s

/-- Helper for `getWeightedRandomVariant`: walks variants and weights
subtracting the draw; picks the first variant whose cumulative weight
strictly exceeds the draw (the subtractive walk selects the same first
index as the spec's prefix-sum formulation). -/
def pickVariant : List String → List Int → Int → Option String
  | [], _, _ => none
  | _ :: _, [], _ => none
  | v :: vs, w :: ws, draw => if draw < w then some v else pickVariant vs ws (draw - w)

/-- Modelled from the spec: `getWeightedRandomVariant` lives in
`src/packages/core/src/mathHelpers.ts`, which is not under src/.  Spec 4.4 / 7:
absent weights default to all ones (uniform); a length mismatch or an
all-zero total fails with `InvalidWeightsError` (modelled as `none`);
otherwise one value, drawn uniformly in `[0, totalWeight)` by the injected
random source (here: passed in as `draw`), selects the first variant whose
cumulative weight strictly exceeds it. -/
def getWeightedRandomVariant (variants : List String) (weights : Option (List Int))
    (draw : Int) : Option String :=
  let ws := weights.getD (variants.map fun _ => (1 : Int))
  if ws.length = variants.length then
    if ws.sum = 0 then none
    else pickVariant variants ws draw
  else none

/-- Second stage of `getFeatureFlag` (after the override and development
branches): the stored value when not absent, else the configured default,
else `false`. -/
def flagFallback (s : AbbyState) (stored : Option Bool) : Bool :=
  match stored with
  | some b => b
  | none => s.config.settings.flags.default.getD false

/-- `Abby.getFeatureFlag`.  Total: an undeclared key simply finds no binding
(JS property access yields `undefined`) and falls through the chain. -/
def getFeatureFlag (s : AbbyState) (key : String) : Bool :=
  let storedValue := (lookupA s.data.flags key).join
  match lookupA s.flagOverrides key with
  | some localOverride => localOverride
  | none =>
    if s.nodeEnv = "development" then
      match lookupA s.config.settings.flags.devOverrides key with
      | some devOverride => devOverride
      | none =>
        match s.config.settings.flags.devDefault with
        | some devDefault => devDefault
        | none => flagFallback s storedValue
    else flagFallback s storedValue

/-- `Abby.getTestVariant`.  Returns the variant together with the state after
the call; `none` models the thrown exception (destructuring an absent test
definition, or `InvalidWeightsError` from the selector). -/
def getTestVariant (s : AbbyState) (key : String) : Option (String × AbbyState) :=
  match lookupA s.data.tests key with
  | none => none
  | some entry =>
    match (if s.nodeEnv = "development" then lookupA s.testOverrides key else none) with
    | some override => some (override, s)
    | none =>
      match s.persistantTestStorage.bind (fun st => lookupA st key) with
      | some persistedValue => some (persistedValue, s)
      | none =>
        match getWeightedRandomVariant entry.variants entry.weights (s.rand.headD 0) with
        | none => none
        | some weightedVariant =>
          some (weightedVariant,
            { s with
              rand := s.rand.tail
              persistantTestStorage :=
                s.persistantTestStorage.map (fun st => setA st key weightedVariant) })

/-- The `tests` reduce of `getProjectData`: the accumulator is
`this.#data.tests` itself, so each test entry has its resolved variant
written into `selectedVariant` in place. -/
def resolveTestsLoop : List String → AbbyState → Option AbbyState
  | [], s => some s
  | k :: rest, s =>
    match getTestVariant s k with
    | none => none
    | some (v, s') =>
      resolveTestsLoop rest
        { s' with data :=
            { s'.data with tests :=
                match lookupA s'.data.tests k with
                | some e => setA s'.data.tests k { e with selectedVariant := some v }
                | none => s'.data.tests } }

/-- The `flags` reduce of `getProjectData`: the accumulator is
`this.#data.flags` itself, so each flag's resolved boolean is written back
over its stored value in place. -/
def resolveFlagsLoop : List String → AbbyState → AbbyState
  | [], s => s
  | k :: rest, s =>
    resolveFlagsLoop rest
      { s with data :=
          { s.data with flags := setA s.data.flags k (some (getFeatureFlag s k)) } }

/-- `Abby.getProjectData`: resolves every test (mutating the test map, the
random stream and the test storage), then every flag (mutating the flag map),
and returns the — now aliased — data together with the state. -/
def getProjectData (s : AbbyState) : Option (LocalData × AbbyState) :=
  match resolveTestsLoop (s.data.tests.map Prod.fst) s with
  | none => none
  | some s1 =>
    let s2 := resolveFlagsLoop (s1.data.flags.map Prod.fst) s1
    some (s2.data, s2)

/-- The `forEach` of `notifyListeners`, unrolled over the listener count:
`getProjectData` is evaluated once per listener, threading its state
changes, and the list collects the snapshot delivered to each listener in
order. -/
def notifyLoop : Nat → AbbyState → Option (List LocalData × AbbyState)
  | 0, s => some ([], s)
  | n + 1, s =>
    match getProjectData s with
    | none => none
    | some (d, s') =>
      match notifyLoop n s' with
      | none => none
      | some (ds, s'') => some (d :: ds, s'')

/-- `Abby.notifyListeners` as a state transformer (the delivered snapshots
are dropped). -/
def notifyListeners (s : AbbyState) : Option AbbyState :=
  (notifyLoop s.listeners s).map (fun p => p.2)

/-- The `tests` reduce of `responseToLocalData`: snapshot tests whose name has
no binding in the accumulator are skipped; a matching entry gets the fetched
weights assigned, everything else spread unchanged.  The fold's base is
`this.config.tests`, which the constructor aliased to `this.#data.tests`. -/
def mergeTestStep (acc : List (String × TestEntry)) (nw : String × List Int) :
    List (String × TestEntry) :=
  match lookupA acc nw.1 with
  | none => acc
  | some e => setA acc nw.1 { e with weights := some nw.2 }

/-- The `tests` reduce of `responseToLocalData`, folded over the snapshot. -/
def mergeSnapshotTests (base : List (String × TestEntry))
    (snapTests : List (String × List Int)) : List (String × TestEntry) :=
  snapTests.foldl mergeTestStep base

/-- One step of the `flags` reduce of `responseToLocalData`. -/
def buildFlagStep (acc : List (String × Option Bool)) (nb : String × Bool) :
    List (String × Option Bool) :=
  setA acc nb.1 (some nb.2)

/-- The `flags` reduce of `responseToLocalData`: the flag map is rebuilt from
the snapshot alone, starting from the empty object. -/
def buildSnapshotFlags (snapFlags : List (String × Bool)) : List (String × Option Bool) :=
  snapFlags.foldl buildFlagStep []

/-- `Abby.responseToLocalData`. -/
def responseToLocalData (s : AbbyState) (data : AbbyDataResponse) : LocalData :=
  { tests := mergeSnapshotTests s.data.tests data.tests
    flags := buildSnapshotFlags data.flags }

/-- `Abby.init`: replace `#data` by the merged snapshot, notify listeners,
ingest `document.cookie` when in a browser (`documentCookie = some c`), and
return `getProjectData()` (which mutates state) together with the final
state. -/
def init (s : AbbyState) (data : AbbyDataResponse) (documentCookie : Option String) :
    Option (LocalData × AbbyState) :=
  let s1 := { s with data := responseToLocalData s data }
  match notifyListeners s1 with
  | none => none
  | some s2 =>
    let s3 :=
      match documentCookie with
      | none => s2
      | some c => setLocalOverrides s2 c
    getProjectData s3

/-- `Abby.loadProjectData`, with the awaited HTTP response passed in
(`none` models a failed / empty fetch): the `if (!data) return;` guard makes
an absent response a no-op, otherwise `init` runs. -/
def loadProjectData (s : AbbyState) (response : Option AbbyDataResponse)
    (documentCookie : Option String) : Option AbbyState :=
  match response with
  | none => some s
  | some d => (init s d documentCookie).map (fun p => p.2)

/-- `Abby.updateLocalVariant`: sets the override map and — unconditionally,
in every environment mode — the injected test storage, then notifies. -/
def updateLocalVariant (s : AbbyState) (key value : String) : Option AbbyState :=
  notifyListeners
    { s with
      testOverrides := setA s.testOverrides key value
      persistantTestStorage := s.persistantTestStorage.map (fun st => setA st key value) }

/-- `Abby.updateFlag`: sets the override map, writes the flag storage only in
development mode, then notifies. -/
def updateFlag (s : AbbyState) (name : String) (value : Bool) : Option AbbyState :=
  notifyListeners
    { s with
      flagOverrides := setA s.flagOverrides name value
      persistantFlagStorage :=
        if s.nodeEnv = "development" then
          s.persistantFlagStorage.map (fun st => setA st name (if value then "true" else "false"))
        else s.persistantFlagStorage }

/-- The flag-resolution precedence chain exactly as the specification words it
(spec 4.2 / claim C1): (1) explicit runtime override; (2) only in development
mode, the per-flag development override, else the development-wide default;
(3) the stored value, if not absent; (4) the static default, else `false`.
Stated separately from `getFeatureFlag` so the refinement theorem compares
the source's logic against the spec's words. -/
def flagPrecedenceChain (runtimeOverride : Option Bool) (isDev : Prop) [Decidable isDev]
    (devOverride devDefault stored staticDefault : Option Bool) : Bool :=
  match runtimeOverride with
  | some b => b
  | none =>
    match (if isDev then
            (match devOverride with
             | some b => some b
             | none => devDefault)
           else none) with
    | some b => b
    | none =>
      match stored with
      | some b => b
      | none => staticDefault.getD false

/-- Concrete configuration exercising every layer of the flag chain. -/
def cfgC1 : AbbyConfig :=
  { projectId := "p"
    flags := ["f1"]
    settings :=
      { flags :=
          { devDefault := some true
            default := some false
            devOverrides := [("f1", false)] } } }

/-- Concrete engine state for the C1 witness. -/
def sC1 : AbbyState := AbbyState.new cfgC1 none none "development" []

/-- Concrete configuration with one declared test. -/
def cfgC2 : AbbyConfig :=
  { projectId := "p"
    tests := [("t", { variants := ["A", "B"] })] }

/-- Concrete engine state for the C2 witness: development mode with a local
variant override in place. -/
def sC2 : AbbyState :=
  { AbbyState.new cfgC2 none none "development" [] with testOverrides := [("t", "B")] }

/-- Concrete engine state for C3: one declared flag, no declared tests. -/
def sC3 : AbbyState :=
  AbbyState.new { projectId := "p", flags := ["flag1"] } none none "production" []

/-- The state components a `getProjectData` call (and hence a notification)
leaves intact: everything except the resolved-value write-backs into
`data`, the consumed random stream, and freshly persisted variants.
`testStoreKeep` says existing storage entries survive; `testsVW` says every
test keeps its `variants` and `weights`. -/
structure Frame (s s' : AbbyState) : Prop where
  config : s'.config = s.config
  nodeEnv : s'.nodeEnv = s.nodeEnv
  flagOv : s'.flagOverrides = s.flagOverrides
  testOv : s'.testOverrides = s.testOverrides
  listeners : s'.listeners = s.listeners
  flagStore : s'.persistantFlagStorage = s.persistantFlagStorage
  testStoreSome : s'.persistantTestStorage.isSome = s.persistantTestStorage.isSome
  testStoreKeep : ∀ k v, s.persistantTestStorage.bind (fun st => lookupA st k) = some v →
    s'.persistantTestStorage.bind (fun st => lookupA st k) = some v
  testsVW : ∀ t, (lookupA s'.data.tests t).map (fun e => (e.variants, e.weights))
      = (lookupA s.data.tests t).map (fun e => (e.variants, e.weights))
  flagKeys : s'.data.flags.map Prod.fst = s.data.flags.map Prod.fst

/-- The public state-changing operations, for claims quantifying over call
sequences. -/
inductive Op where
  | updFlag (name : String) (value : Bool)
  | updVariant (key : String) (value : String)
  | initOp (data : AbbyDataResponse) (documentCookie : Option String)
  | ingest (cookies : String)
  deriving DecidableEq

/-- Run one public operation. -/
def applyOp (s : AbbyState) : Op → Option AbbyState
  | .updFlag n v => updateFlag s n v
  | .updVariant k v => updateLocalVariant s k v
  | .initOp d c => (init s d c).map (fun p => p.2)
  | .ingest c => some (setLocalOverrides s c)

/-- Run a sequence of public operations. -/
def applyOps : AbbyState → List Op → Option AbbyState
  | s, [] => some s
  | s, op :: rest => (applyOp s op).bind (fun s' => applyOps s' rest)

/-- Does ingesting this cookie string (under project id `pid`) write the flag
override named `f`? -/
def cookieTouchesFlag (pid f : String) (cookies : String) : Bool :=
  (parseCookies cookies).any (fun nv =>
    strStartsWith nv.1 ABBY_FF_STORAGE_KEY &&
      (replaceFirst nv.1 (ABBY_FF_STORAGE_KEY ++ pid ++ "_") == f))

/-- `opOk pid f op`: the operation does not override flag `f` again (neither
by an `updateFlag` on `f` nor by ingesting a cookie that writes `f`). -/
def opOk (pid f : String) : Op → Bool
  | .updFlag n _ => n != f
  | .updVariant _ _ => true
  | .initOp _ c =>
    match c with
    | none => true
    | some str => !cookieTouchesFlag pid f str
  | .ingest c => !cookieTouchesFlag pid f c

/-- Config for C4: one declared test under project id `proj1`. -/
def cfgC4 : AbbyConfig :=
  { projectId := "proj1", tests := [("test", { variants := ["A", "B"] })] }

/-- C4 counterexample state: development mode, after ingesting a cookie whose
override value is not a declared variant. -/
def sC4 : AbbyState :=
  setLocalOverrides (AbbyState.new cfgC4 none none "development" []) "abby-ab-proj1_test=Z"

/-- C4 witness state: production mode, fresh instance, one random draw. -/
def sC4b : AbbyState := AbbyState.new cfgC4 none none "production" [0]

/-- Config for C5: one declared flag. -/
def cfgC5 : AbbyConfig := { projectId := "p", flags := ["f"] }

/-- Snapshot for C5 setting the flag to `true`. -/
def respC5 : AbbyDataResponse := { flags := [("f", true)] }

/-- C5: fresh instance. -/
def sC5zero : AbbyState := AbbyState.new cfgC5 none none "production" []

/-- C5: state after ingesting `respC5`. -/
def sC5one : AbbyState := ((init sC5zero respC5 none).map (fun p => p.2)).getD sC5zero

/-- C5: state after then ingesting an empty snapshot. -/
def sC5two : AbbyState := ((init sC5one {} none).map (fun p => p.2)).getD sC5zero

/-- Config for C6: one declared flag, no declared tests. -/
def cfgC6 : AbbyConfig := { projectId := "p", flags := ["f"] }

/-- C6 counterexample state: the declared flag has a stored value. -/
def sC6 : AbbyState :=
  { AbbyState.new cfgC6 none none "production" [] with
    data := { tests := [], flags := [("f", some true)] } }

/-- C6 snapshot whose only flag name is undeclared. -/
def respC6 : AbbyDataResponse := { flags := [("g", true)] }

/-- Config for the C6 witness: a declared flag and a declared test. -/
def cfgC6w : AbbyConfig :=
  { projectId := "p", flags := ["f"], tests := [("t", { variants := ["A"] })] }

/-- C6 witness state. -/
def sC6w : AbbyState := AbbyState.new cfgC6w none none "production" []

/-- C6 witness snapshot: one declared and one undeclared test, one declared
and one undeclared flag. -/
def respC6w : AbbyDataResponse :=
  { tests := [("t", [2, 1]), ("unknown", [5])], flags := [("f", false), ("g", true)] }

/-- Config for C7. -/
def cfgC7 : AbbyConfig := { projectId := "p", flags := ["f"] }

/-- C7: fresh instance. -/
def sC7zero : AbbyState := AbbyState.new cfgC7 none none "production" []

/-- C7: state right after `updateFlag("f", true)`. -/
def sC7one : AbbyState := (updateFlag sC7zero "f" true).getD sC7zero

/-- C7: subsequent operations — a snapshot ingestion that sets the stored
value of `f` to `false` (plus a cookie on another flag), an override of
another flag, and a variant override. -/
def opsC7 : List Op :=
  [Op.initOp { flags := [("f", false)] } (some "abby-ff-p_g=false"),
   Op.updFlag "g" false,
   Op.updVariant "t" "A"]

/-- C7: state after running `opsC7`. -/
def sC7two : AbbyState := (applyOps sC7one opsC7).getD sC7zero

/-- Config for C8: one declared test. -/
def cfgC8 : AbbyConfig :=
  { projectId := "p", tests := [("test", { variants := ["A", "B"] })] }

/-- C8 counterexample state: two listeners, no persistent storage, and a
random stream whose two draws select different variants. -/
def sC8 : AbbyState :=
  { AbbyState.new cfgC8 none none "production" [0, 1] with listeners := 2 }

/-- C9 counterexample state: a declared flag whose stored value is still
`null`. -/
def sC9 : AbbyState :=
  AbbyState.new { projectId := "p", flags := ["f"] } none none "production" []

/-- Config for C10: one declared test. -/
def cfgC10 : AbbyConfig :=
  { projectId := "p", tests := [("t", { variants := ["A", "B"] })] }

/-- C10: production-mode instance with an (empty) injected test storage. -/
def sC10zero : AbbyState := AbbyState.new cfgC10 (some []) none "production" []

/-- C10: state after `updateLocalVariant("t", "B")` outside development. -/
def sC10one : AbbyState := (updateLocalVariant sC10zero "t" "B").getD sC10zero

/-- C8 witness value: the (snapshots, final state) of one notification on
`sC8`. -/
def notifyC8 : List LocalData × AbbyState := (notifyLoop sC8.listeners sC8).getD ([], sC8)

/-- C9 witness value: the (snapshot, final state) of one `getProjectData`
call on `sC9`. -/
def gpdC9 : LocalData × AbbyState :=
  (getProjectData sC9).getD ({ tests := [], flags := [] }, sC9)

/-! ## Association-list lemmas -/

theorem lookupA_setA {α : Type} (l : List (String × α)) (k k' : String) (v : α) :
    lookupA (setA l k v) k' = if k = k' then some v else lookupA l k' := by
  induction l with
  | nil => simp [setA, lookupA]
  | cons p rest ih =>
    obtain ⟨a, b⟩ := p
    by_cases hak : a = k
    · subst hak
      by_cases h : a = k' <;> simp [setA, lookupA, h]
    · by_cases h : a = k'
      · subst h
        have hk : k ≠ a := fun hh => hak hh.symm
        simp [setA, lookupA, hak, hk]
      · simp [setA, lookupA, hak, h, ih]

theorem lookupA_setA_self {α : Type} (l : List (String × α)) (k : String) (v : α) :
    lookupA (setA l k v) k = some v := by
  simp [lookupA_setA]

theorem lookupA_setA_ne {α : Type} (l : List (String × α)) (k k' : String) (v : α)
    (h : k ≠ k') : lookupA (setA l k v) k' = lookupA l k' := by
  simp [lookupA_setA, h]

theorem map_fst_setA_of_mem {α : Type} (l : List (String × α)) (k : String) (v : α)
    (h : k ∈ l.map Prod.fst) : (setA l k v).map Prod.fst = l.map Prod.fst := by
  induction l with
  | nil => simp at h
  | cons p rest ih =>
    obtain ⟨a, b⟩ := p
    by_cases hak : a = k
    · subst hak
      simp [setA]
    · simp only [List.map_cons, List.mem_cons] at h
      rcases h with h | h
    
      · exact absurd h.symm hak
      · simp [setA, hak, ih h]

theorem lookupA_isSome_iff {α : Type} (l : List (String × α)) (k : String) :
    (lookupA l k).isSome = true ↔ k ∈ l.map Prod.fst := by
  induction l with
  | nil => simp [lookupA]
  | cons p rest ih =>
    obtain ⟨a, b⟩ := p
    by_cases h : a = k
    · subst h
      simp [lookupA]
    · have hk : ¬(k = a) := fun hh => h hh.symm
      simp [lookupA, h, ih, hk]

/-! ## C1: flag resolution follows the precedence chain -/

/-- C1: for every declared flag name, `getFeatureFlag` resolves by the spec's
precedence chain, first satisfied wins: (1) explicit runtime override,
honored regardless of environment mode; (2) only in development mode, the
per-flag development override, else the development-wide default; (3) the
stored value merged from the remote snapshot, if not absent; (4) the static
configuration default, else `false`. -/
theorem getFeatureFlag_follows_precedence (s : AbbyState) (key : String)
    (hdecl : key ∈ s.config.flags) :
    getFeatureFlag s key =
      flagPrecedenceChain (lookupA s.flagOverrides key) (s.nodeEnv = "development")
        (lookupA s.config.settings.flags.devOverrides key)
        s.config.settings.flags.devDefault
        ((lookupA s.data.flags key).join)
        s.config.settings.flags.default := by
  unfold getFeatureFlag flagPrecedenceChain flagFallback
  by_cases hdev : s.nodeEnv = "development" <;>
    cases lookupA s.flagOverrides key <;>
    cases lookupA s.config.settings.flags.devOverrides key <;>
    cases s.config.settings.flags.devDefault <;>
    cases (lookupA s.data.flags key).join <;>
    simp [hdev]

/-- Witness for C1 at a concrete development-mode state where the per-flag
development override decides the value. -/
theorem getFeatureFlag_follows_precedence_witness :
    (getFeatureFlag sC1 "f1" =
      flagPrecedenceChain (lookupA sC1.flagOverrides "f1") (sC1.nodeEnv = "development")
        (lookupA sC1.config.settings.flags.devOverrides "f1")
        sC1.config.settings.flags.devDefault
        ((lookupA sC1.data.flags "f1").join)
        sC1.config.settings.flags.default)
    ∧ getFeatureFlag sC1 "f1" = false :=
  ⟨getFeatureFlag_follows_precedence sC1 "f1" (by decide), by decide⟩

/-! ## C2: variant resolution follows the precedence chain -/

/-- C2: for a declared test, `getTestVariant` follows the precedence chain:
(1) the runtime override, honored only when the environment is development;
(2) the value the test PersistentStore returns for this key, if present;
(3) otherwise the weighted random selection over the test's variants and
weights, whose result is immediately written back to the PersistentStore
under this key. -/
theorem getTestVariant_follows_precedence (s : AbbyState) (key : String) (entry : TestEntry)
    (hdecl : lookupA s.data.tests key = some entry) :
    (∀ v, s.nodeEnv = "development" → lookupA s.testOverrides key = some v →
      getTestVariant s key = some (v, s))
    ∧ ((if s.nodeEnv = "development" then lookupA s.testOverrides key else none) = none →
      ∀ p, s.persistantTestStorage.bind (fun st => lookupA st key) = some p →
      getTestVariant s key = some (p, s))
    ∧ ((if s.nodeEnv = "development" then lookupA s.testOverrides key else none) = none →
      s.persistantTestStorage.bind (fun st => lookupA st key) = none →
      ∀ v, getWeightedRandomVariant entry.variants entry.weights (s.rand.headD 0) = some v →
      getTestVariant s key = some (v,
        { s with
          rand := s.rand.tail
          persistantTestStorage := s.persistantTestStorage.map (fun st => setA st key v) })) := by
  refine ⟨?_, ?_, ?_⟩
  · intro v hdev hov
    simp [getTestVariant, hdecl, hdev, hov]
  · intro hov p hp
    simp [getTestVariant, hdecl, hov, hp]
  · intro hov hp v hw
    simp only [getTestVariant, hdecl, hov, hp, hw]

/-- Witness for C2: in development mode the local override decides. -/
theorem getTestVariant_follows_precedence_witness :
    getTestVariant sC2 "t" = some ("B", sC2) :=
  (getTestVariant_follows_precedence sC2 "t" { variants := ["A", "B"] } (by decide)).1
    "B" (by decide) (by decide)

/-! ## C3: undeclared names -/

/-- C3 counterexample: resolving the undeclared flag name "nope" raises
nothing — `getFeatureFlag` is total and silently returns the default
`false` — and resolving the undeclared test name "nope" fails with the
modelled TypeError of destructuring an absent definition (`none`); no
UnknownFlagError / UnknownTestError exists in the engine. -/
theorem undeclared_lookup_counterexample :
    ("nope" ∈ sC3.config.flags → False)
    ∧ ("nope" ∈ sC3.config.tests.map Prod.fst → False)
    ∧ getFeatureFlag sC3 "nope" = false
    ∧ getTestVariant sC3 "nope" = none := by
  decide

/-- C3 amended: resolving an undeclared flag name (no stored binding, no
override, outside development mode) silently returns the static
configuration default, else `false`; resolving an undeclared test name
makes `getTestVariant` fail with a runtime TypeError (modelled `none`) —
neither raises a dedicated UnknownFlagError / UnknownTestError. -/
theorem undeclared_resolution_behavior (s : AbbyState) (key : String)
    (hflag : lookupA s.data.flags key = none)
    (hov : lookupA s.flagOverrides key = none)
    (hdev : s.nodeEnv ≠ "development")
    (htest : lookupA s.data.tests key = none) :
    getFeatureFlag s key = s.config.settings.flags.default.getD false
    ∧ getTestVariant s key = none := by
  constructor
  · simp [getFeatureFlag, flagFallback, hflag, hov, hdev]
  · simp [getTestVariant, htest]

/-- Witness for the amended C3 at the concrete state `sC3`. -/
theorem undeclared_resolution_behavior_witness :
    getFeatureFlag sC3 "nope" = sC3.config.settings.flags.default.getD false
    ∧ getTestVariant sC3 "nope" = none :=
  undeclared_resolution_behavior sC3 "nope" (by decide) (by decide) (by decide) (by decide)

/-! ## Branch equations for getTestVariant -/

theorem gtv_eq_undeclared (s : AbbyState) (key : String)
    (hdecl : lookupA s.data.tests key = none) : getTestVariant s key = none := by
  simp only [getTestVariant, hdecl]

theorem gtv_eq_override (s : AbbyState) (key : String) (entry : TestEntry) (v : String)
    (hdecl : lookupA s.data.tests key = some entry)
    (hov : (if s.nodeEnv = "development" then lookupA s.testOverrides key else none) = some v) :
    getTestVariant s key = some (v, s) := by
  simp only [getTestVariant, hdecl, hov]

theorem gtv_eq_persisted (s : AbbyState) (key : String) (entry : TestEntry) (p : String)
    (hdecl : lookupA s.data.tests key = some entry)
    (hov : (if s.nodeEnv = "development" then lookupA s.testOverrides key else none) = none)
    (hp : s.persistantTestStorage.bind (fun st => lookupA st key) = some p) :
    getTestVariant s key = some (p, s) := by
  simp only [getTestVariant, hdecl, hov, hp]

theorem gtv_eq_selected (s : AbbyState) (key : String) (entry : TestEntry) (v : String)
    (hdecl : lookupA s.data.tests key = some entry)
    (hov : (if s.nodeEnv = "development" then lookupA s.testOverrides key else none) = none)
    (hp : s.persistantTestStorage.bind (fun st => lookupA st key) = none)
    (hw : getWeightedRandomVariant entry.variants entry.weights (s.rand.headD 0) = some v) :
    getTestVariant s key = some (v,
      { s with
        rand := s.rand.tail
        persistantTestStorage := s.persistantTestStorage.map (fun st => setA st key v) }) := by
  simp only [getTestVariant, hdecl, hov, hp, hw]

theorem gtv_eq_selector_fail (s : AbbyState) (key : String) (entry : TestEntry)
    (hdecl : lookupA s.data.tests key = some entry)
    (hov : (if s.nodeEnv = "development" then lookupA s.testOverrides key else none) = none)
    (hp : s.persistantTestStorage.bind (fun st => lookupA st key) = none)
    (hw : getWeightedRandomVariant entry.variants entry.weights (s.rand.headD 0) = none) :
    getTestVariant s key = none := by
  simp only [getTestVariant, hdecl, hov, hp, hw]

/-! ## Frame lemmas: what a resolution pass leaves intact -/

theorem Frame.refl (s : AbbyState) : Frame s s :=
  ⟨rfl, rfl, rfl, rfl, rfl, rfl, rfl, fun _ _ h => h, fun _ => rfl, rfl⟩

theorem Frame.comp {s1 s2 s3 : AbbyState} (f1 : Frame s1 s2) (f2 : Frame s2 s3) :
    Frame s1 s3 :=
  ⟨f2.config.trans f1.config, f2.nodeEnv.trans f1.nodeEnv, f2.flagOv.trans f1.flagOv,
   f2.testOv.trans f1.testOv, f2.listeners.trans f1.listeners,
   f2.flagStore.trans f1.flagStore, f2.testStoreSome.trans f1.testStoreSome,
   fun k v h => f2.testStoreKeep k v (f1.testStoreKeep k v h),
   fun t => (f2.testsVW t).trans (f1.testsVW t), f2.flagKeys.trans f1.flagKeys⟩

theorem testsVW_setSelected (tests : List (String × TestEntry)) (k : String)
    (e : TestEntry) (v : String) (he : lookupA tests k = some e) (t : String) :
    (lookupA (setA tests k { e with selectedVariant := some v }) t).map
        (fun x => (x.variants, x.weights))
      = (lookupA tests t).map (fun x => (x.variants, x.weights)) := by
  rw [lookupA_setA]
  by_cases h : k = t
  · subst h
    simp [he]
  · simp [h]

theorem getTestVariant_state (s : AbbyState) (key v : String) (s' : AbbyState)
    (h : getTestVariant s key = some (v, s')) :
    s'.config = s.config ∧ s'.nodeEnv = s.nodeEnv ∧ s'.data = s.data
    ∧ s'.flagOverrides = s.flagOverrides ∧ s'.testOverrides = s.testOverrides
    ∧ s'.listeners = s.listeners ∧ s'.persistantFlagStorage = s.persistantFlagStorage
    ∧ s'.persistantTestStorage.isSome = s.persistantTestStorage.isSome
    ∧ (∀ k2 v2, s.persistantTestStorage.bind (fun st => lookupA st k2) = some v2 →
        s'.persistantTestStorage.bind (fun st => lookupA st k2) = some v2) := by
  cases hd : lookupA s.data.tests key with
  | none => rw [gtv_eq_undeclared s key hd] at h; exact absurd h (by simp)
  | some entry =>
    cases hov : (if s.nodeEnv = "development" then lookupA s.testOverrides key else none) with
    | some o =>
      rw [gtv_eq_override s key entry o hd hov] at h
      simp only [Option.some.injEq, Prod.mk.injEq] at h
      rw [← h.2]
      exact ⟨rfl, rfl, rfl, rfl, rfl, rfl, rfl, rfl, fun _ _ hh => hh⟩
    | none =>
      cases hp : s.persistantTestStorage.bind (fun st => lookupA st key) with
      | some p =>
        rw [gtv_eq_persisted s key entry p hd hov hp] at h
        simp only [Option.some.injEq, Prod.mk.injEq] at h
        rw [← h.2]
        exact ⟨rfl, rfl, rfl, rfl, rfl, rfl, rfl, rfl, fun _ _ hh => hh⟩
      | none =>
        cases hw : getWeightedRandomVariant entry.variants entry.weights (s.rand.headD 0) with
        | none => rw [gtv_eq_selector_fail s key entry hd hov hp hw] at h; exact absurd h (by simp)
        | some w =>
          rw [gtv_eq_selected s key entry w hd hov hp hw] at h
          simp only [Option.some.injEq, Prod.mk.injEq] at h
          rw [← h.2]
          refine ⟨rfl, rfl, rfl, rfl, rfl, rfl, rfl, by simp, ?_⟩
          intro k2 v2 hh
          cases hst : s.persistantTestStorage with
          | none => rw [hst] at hh; exact absurd hh (by simp)
          | some st =>
            rw [hst] at hh hp
            simp at hh hp ⊢
            by_cases hk : key = k2
            · subst hk
              rw [hh] at hp
              exact absurd hp (by simp)
            · rw [lookupA_setA_ne st key k2 w hk]
              exact hh

theorem getTestVariant_frame (s : AbbyState) (key v : String) (s' : AbbyState)
    (h : getTestVariant s key = some (v, s')) : Frame s s' ∧ s'.data = s.data := by
  obtain ⟨hc, he, hd, hfo, hto, hl, hpf, hts, htk⟩ := getTestVariant_state s key v s' h
  refine ⟨⟨hc, he, hfo, hto, hl, hpf, hts, htk, ?_, ?_⟩, hd⟩
  · intro t
    rw [hd]
  · rw [hd]

theorem frame_setSelectedState (s1 : AbbyState) (k v : String) :
    Frame s1
      { s1 with data :=
          { s1.data with tests :=
              match lookupA s1.data.tests k with
              | some e => setA s1.data.tests k { e with selectedVariant := some v }
              | none => s1.data.tests } }
    ∧ ({ s1 with data :=
          { s1.data with tests :=
              match lookupA s1.data.tests k with
              | some e => setA s1.data.tests k { e with selectedVariant := some v }
              | none => s1.data.tests } } : AbbyState).data.flags = s1.data.flags := by
  constructor
  · refine ⟨rfl, rfl, rfl, rfl, rfl, rfl, rfl, fun _ _ hh => hh, ?_, rfl⟩
    intro t
    cases hle : lookupA s1.data.tests k with
    | none => simp only [hle]
    | some e =>
      simp only [hle]
      exact testsVW_setSelected s1.data.tests k e v hle t
  · rfl

theorem resolveTestsLoop_frame (ks : List String) (s s' : AbbyState)
    (h : resolveTestsLoop ks s = some s') :
    Frame s s' ∧ s'.data.flags = s.data.flags := by
  induction ks generalizing s with
  | nil =>
    simp only [resolveTestsLoop, Option.some.injEq] at h
    subst h
    exact ⟨Frame.refl s, rfl⟩
  | cons k ks ih =>
    unfold resolveTestsLoop at h
    cases hg : getTestVariant s k with
    | none => simp [hg] at h
    | some p =>
      obtain ⟨v, s1⟩ := p
      simp only [hg] at h
      obtain ⟨f1, hd1⟩ := getTestVariant_frame s k v s1 hg
      obtain ⟨fset, hflset⟩ := frame_setSelectedState s1 k v
      obtain ⟨f2, hfl2⟩ := ih _ h
      refine ⟨(f1.comp fset).comp f2, ?_⟩
      rw [hfl2, hflset, hd1]

theorem resolveFlagsLoop_frame (ks : List String) (s : AbbyState)
    (hks : ∀ k ∈ ks, k ∈ s.data.flags.map Prod.fst) :
    Frame s (resolveFlagsLoop ks s) ∧ (resolveFlagsLoop ks s).data.tests = s.data.tests := by
  induction ks generalizing s with
  | nil => exact ⟨Frame.refl s, rfl⟩
  | cons k ks ih =>
    unfold resolveFlagsLoop
    have hk : k ∈ s.data.flags.map Prod.fst := hks k (List.mem_cons_self k ks)
    have hkeys : (setA s.data.flags k (some (getFeatureFlag s k))).map Prod.fst
        = s.data.flags.map Prod.fst := map_fst_setA_of_mem _ _ _ hk
    have f1 : Frame s
        { s with data :=
            { s.data with flags := setA s.data.flags k (some (getFeatureFlag s k)) } } :=
      ⟨rfl, rfl, rfl, rfl, rfl, rfl, rfl, fun _ _ hh => hh, fun _ => rfl, hkeys⟩
    have hks' : ∀ k2 ∈ ks, k2 ∈
        (setA s.data.flags k (some (getFeatureFlag s k))).map Prod.fst := by
      intro k2 hm
      rw [hkeys]
      exact hks k2 (List.mem_cons_of_mem _ hm)
    obtain ⟨f2, ht⟩ := ih
      { s with data :=
          { s.data with flags := setA s.data.flags k (some (getFeatureFlag s k)) } } hks'
    exact ⟨f1.comp f2, ht⟩

theorem getProjectData_frame (s : AbbyState) (d : LocalData) (s' : AbbyState)
    (h : getProjectData s = some (d, s')) : Frame s s' ∧ d = s'.data := by
  unfold getProjectData at h
  cases h1 : resolveTestsLoop (s.data.tests.map Prod.fst) s with
  | none => simp [h1] at h
  | some s1 =>
    simp only [h1, Option.some.injEq, Prod.mk.injEq] at h
    obtain ⟨f1, -⟩ := resolveTestsLoop_frame _ _ _ h1
    obtain ⟨f2, -⟩ := resolveFlagsLoop_frame (s1.data.flags.map Prod.fst) s1 (fun k hk => hk)
    rw [← h.2, ← h.1]
    exact ⟨f1.comp f2, rfl⟩

theorem notifyLoop_frame (n : Nat) (s : AbbyState) (ds : List LocalData) (s' : AbbyState)
    (h : notifyLoop n s = some (ds, s')) : Frame s s' := by
  induction n generalizing s ds with
  | zero =>
    simp only [notifyLoop, Option.some.injEq, Prod.mk.injEq] at h
    rw [← h.2]
    exact Frame.refl s
  | succ n ih =>
    unfold notifyLoop at h
    cases hg : getProjectData s with
    | none => simp [hg] at h
    | some p =>
      obtain ⟨d1, s1⟩ := p
      simp only [hg] at h
      cases hr : notifyLoop n s1 with
      | none => simp [hr] at h
      | some q =>
        obtain ⟨ds2, s2⟩ := q
        simp only [hr, Option.some.injEq, Prod.mk.injEq] at h
        obtain ⟨f1, -⟩ := getProjectData_frame s d1 s1 hg
        rw [h.2] at hr
        exact f1.comp (ih s1 ds2 hr)

theorem notifyListeners_frame (s s' : AbbyState) (h : notifyListeners s = some s') :
    Frame s s' := by
  unfold notifyListeners at h
  cases hg : notifyLoop s.listeners s with
  | none => simp [hg] at h
  | some p =>
    obtain ⟨ds, s2⟩ := p
    simp [hg] at h
    subst h
    exact notifyLoop_frame _ _ _ _ hg

theorem getFeatureFlag_congr (s s' : AbbyState) (key : String)
    (h1 : s'.flagOverrides = s.flagOverrides) (h2 : s'.nodeEnv = s.nodeEnv)
    (h3 : s'.config = s.config)
    (h4 : lookupA s'.data.flags key = lookupA s.data.flags key) :
    getFeatureFlag s' key = getFeatureFlag s key := by
  unfold getFeatureFlag flagFallback
  rw [h1, h2, h3, h4]

theorem getFeatureFlag_of_override (s : AbbyState) (key : String) (b : Bool)
    (h : lookupA s.flagOverrides key = some b) : getFeatureFlag s key = b := by
  simp [getFeatureFlag, h]

/-! ## C4: membership of the returned variant -/

theorem pickVariant_mem (variants : List String) (ws : List Int) (draw : Int) (v : String)
    (h : pickVariant variants ws draw = some v) : v ∈ variants := by
  induction variants generalizing ws draw with
  | nil => simp [pickVariant] at h
  | cons x xs ih =>
    cases ws with
    | nil => simp [pickVariant] at h
    | cons w ws' =>
      by_cases hlt : draw < w
      · simp only [pickVariant, if_pos hlt, Option.some.injEq] at h
        rw [← h]
        exact List.mem_cons_self x xs
      · simp only [pickVariant, if_neg hlt] at h
        exact List.mem_cons_of_mem _ (ih ws' (draw - w) h)

theorem getWeightedRandomVariant_mem (variants : List String) (weights : Option (List Int))
    (draw : Int) (v : String) (h : getWeightedRandomVariant variants weights draw = some v) :
    v ∈ variants := by
  unfold getWeightedRandomVariant at h
  by_cases hlen : (weights.getD (variants.map fun _ => (1 : Int))).length = variants.length
  · rw [if_pos hlen] at h
    by_cases hz : (weights.getD (variants.map fun _ => (1 : Int))).sum = 0
    · rw [if_pos hz] at h
      exact absurd h (by simp)
    · rw [if_neg hz] at h
      exact pickVariant_mem _ _ _ _ h
  · rw [if_neg hlen] at h
    exact absurd h (by simp)

/-- C4 counterexample: in development mode, after ingesting the cookie
`abby-ab-proj1_test=Z`, resolving the declared test `test` returns `Z`,
which is not an element of the declared variants — the override branch
returns its value unvalidated. -/
theorem variant_not_in_declared_counterexample :
    (getTestVariant sC4 "test").map Prod.fst = some "Z"
    ∧ (lookupA sC4.data.tests "test").map TestEntry.variants = some ["A", "B"]
    ∧ ("Z" ∈ ["A", "B"] → False) := by
  decide

/-- C4 amended: the returned variant is an element of the test's declared
variants when the random-selection branch supplies it (no development-mode
override applies and the store has no value); the override and
persisted-value branches return their value unvalidated. -/
theorem selected_variant_mem (s : AbbyState) (key : String) (entry : TestEntry)
    (v : String) (s' : AbbyState)
    (hdecl : lookupA s.data.tests key = some entry)
    (hov : (if s.nodeEnv = "development" then lookupA s.testOverrides key else none) = none)
    (hp : s.persistantTestStorage.bind (fun st => lookupA st key) = none)
    (h : getTestVariant s key = some (v, s')) :
    v ∈ entry.variants := by
  cases hw : getWeightedRandomVariant entry.variants entry.weights (s.rand.headD 0) with
  | none =>
    rw [gtv_eq_selector_fail s key entry hdecl hov hp hw] at h
    exact absurd h (by simp)
  | some w =>
    rw [gtv_eq_selected s key entry w hdecl hov hp hw] at h
    simp only [Option.some.injEq, Prod.mk.injEq] at h
    rw [← h.1]
    exact getWeightedRandomVariant_mem _ _ _ _ hw

/-- Witness for the amended C4: a fresh production-mode instance resolves
`test` to `A`, an element of the declared variants. -/
theorem selected_variant_mem_witness :
    "A" ∈ ({ variants := ["A", "B"] } : TestEntry).variants :=
  selected_variant_mem sC4b "test" { variants := ["A", "B"] } "A" { sC4b with rand := [] }
    (by decide) (by decide) (by decide) (by decide)

/-! ## C5: init with an absent / empty snapshot -/

/-- C5 counterexample: after a snapshot stored `f = true`, calling `init`
with an empty (but present) snapshot succeeds and clears the stored flag
map, so `f` resolves to `false` afterwards — not a no-op. -/
theorem init_empty_snapshot_counterexample :
    (init sC5one { tests := [], flags := [] } none).isSome = true
    ∧ getFeatureFlag sC5one "f" = true
    ∧ lookupA sC5one.data.flags "f" = some (some true)
    ∧ sC5two.data.flags = []
    ∧ getFeatureFlag sC5two "f" = false := by
  decide

/-- C5 amended: a null/absent fetch result is discarded before `init`
(`loadProjectData` without data is a no-op); calling `init` with an empty
snapshot is NOT a no-op: previously merged test weights (and variants) are
preserved — the merge folds over the aliased config/test map — and
overrides are retained, but the stored flag map is rebuilt from the empty
snapshot, clearing every stored flag value. -/
theorem init_empty_snapshot_behavior :
    (∀ (s : AbbyState) (c : Option String), loadProjectData s none c = some s)
    ∧ (∀ (s : AbbyState) (d : LocalData) (s' : AbbyState),
        init s { tests := [], flags := [] } none = some (d, s') →
        s'.data.flags = []
        ∧ s'.flagOverrides = s.flagOverrides
        ∧ ∀ t, (lookupA s'.data.tests t).map (fun e => (e.variants, e.weights))
            = (lookupA s.data.tests t).map (fun e => (e.variants, e.weights))) := by
  constructor
  · intro s c
    rfl
  · intro s d s' h
    unfold init at h
    cases hn : notifyListeners
        { s with data := responseToLocalData s { tests := [], flags := [] } } with
    | none =>
      simp only [hn] at h
      exact absurd h (by simp)
    | some s2 =>
      simp only [hn] at h
      have f1 : Frame { s with data := responseToLocalData s { tests := [], flags := [] } } s2 :=
        notifyListeners_frame _ _ hn
      obtain ⟨f2, -⟩ := getProjectData_frame s2 d s' h
      refine ⟨?_, ?_, ?_⟩
      · have hkeys : s'.data.flags.map Prod.fst = [] := by
          have h2 := f2.flagKeys.trans f1.flagKeys
          simpa [responseToLocalData, buildSnapshotFlags] using h2
        exact List.map_eq_nil_iff.mp hkeys
      · exact f2.flagOv.trans f1.flagOv
      · intro t
        exact (f2.testsVW t).trans (f1.testsVW t)

/-- Witness for the amended C5 at the concrete two-init run. -/
theorem init_empty_snapshot_behavior_witness :
    sC5two.data.flags = []
    ∧ sC5two.flagOverrides = sC5one.flagOverrides
    ∧ (lookupA sC5two.data.tests "t").map (fun e => (e.variants, e.weights))
        = (lookupA sC5one.data.tests "t").map (fun e => (e.variants, e.weights)) :=
  ⟨(init_empty_snapshot_behavior.2 sC5one sC5two.data sC5two (by decide)).1,
   (init_empty_snapshot_behavior.2 sC5one sC5two.data sC5two (by decide)).2.1,
   (init_empty_snapshot_behavior.2 sC5one sC5two.data sC5two (by decide)).2.2 "t"⟩

/-! ## C6: the snapshot merge -/

theorem mergeSnapshotTests_isSome (l : List (String × List Int)) :
    ∀ (base : List (String × TestEntry)) (t : String),
      (lookupA (mergeSnapshotTests base l) t).isSome = (lookupA base t).isSome := by
  induction l with
  | nil => intro base t; rfl
  | cons nw rest ih =>
    intro base t
    show (lookupA (mergeSnapshotTests (mergeTestStep base nw) rest) t).isSome = _
    rw [ih]
    unfold mergeTestStep
    cases he : lookupA base nw.1 with
    | none => rfl
    | some e =>
      rw [lookupA_setA]
      by_cases h : nw.1 = t
      · subst h
        simp [he]
      · simp [h]

theorem mergeSnapshotTests_variants (l : List (String × List Int)) :
    ∀ (base : List (String × TestEntry)) (t : String) (e' : TestEntry),
      lookupA (mergeSnapshotTests base l) t = some e' →
      ∃ e, lookupA base t = some e ∧ e'.variants = e.variants := by
  induction l with
  | nil => intro base t e' h; exact ⟨e', h, rfl⟩
  | cons nw rest ih =>
    intro base t e' h
    obtain ⟨e1, he1, hv⟩ := ih (mergeTestStep base nw) t e' h
    unfold mergeTestStep at he1
    cases he : lookupA base nw.1 with
    | none =>
      simp only [he] at he1
      exact ⟨e1, he1, hv⟩
    | some e0 =>
      simp only [he] at he1
      rw [lookupA_setA] at he1
      by_cases hk : nw.1 = t
      · subst hk
        simp only [eq_self_iff_true, if_true, Option.some.injEq] at he1
        exact ⟨e0, he, by rw [hv, ← he1]⟩
      · rw [if_neg hk] at he1
        exact ⟨e1, he1, hv⟩

theorem mergeSnapshotTests_not_mem (l : List (String × List Int)) :
    ∀ (base : List (String × TestEntry)) (t : String), t ∉ l.map Prod.fst →
      lookupA (mergeSnapshotTests base l) t = lookupA base t := by
  induction l with
  | nil => intro base t _; rfl
  | cons nw rest ih =>
    intro base t h
    simp only [List.map_cons, List.mem_cons] at h
    push_neg at h
    show lookupA (mergeSnapshotTests (mergeTestStep base nw) rest) t = _
    rw [ih _ t h.2]
    unfold mergeTestStep
    cases he : lookupA base nw.1 with
    | none => rfl
    | some e => exact lookupA_setA_ne _ _ _ _ (fun hh => h.1 hh.symm)

theorem mergeSnapshotTests_weights (l : List (String × List Int)) :
    ∀ (base : List (String × TestEntry)) (t : String) (w : List Int) (e : TestEntry),
      (l.map Prod.fst).Nodup → (t, w) ∈ l → lookupA base t = some e →
      lookupA (mergeSnapshotTests base l) t = some { e with weights := some w } := by
  induction l with
  | nil => intro base t w e _ hmem _; simp at hmem
  | cons nw rest ih =>
    intro base t w e hnd hmem he
    simp only [List.map_cons, List.nodup_cons] at hnd
    show lookupA (mergeSnapshotTests (mergeTestStep base nw) rest) t = _
    rcases List.mem_cons.mp hmem with hh | hh
    · have hrest : t ∉ rest.map Prod.fst := by
        rw [← hh] at hnd
        exact hnd.1
      rw [mergeSnapshotTests_not_mem rest _ t hrest]
      unfold mergeTestStep
      rw [← hh]
      simp only [he]
      exact lookupA_setA_self _ _ _
    · have ht : t ∈ rest.map Prod.fst := List.mem_map.mpr ⟨(t, w), hh, rfl⟩
      have hne : nw.1 ≠ t := fun hh2 => hnd.1 (hh2 ▸ ht)
      refine ih (mergeTestStep base nw) t w e hnd.2 hh ?_
      unfold mergeTestStep
      cases he2 : lookupA base nw.1 with
      | none => exact he
      | some e0 =>
        rw [lookupA_setA_ne _ _ _ _ hne]
        exact he

theorem buildFlagsFold_not_mem (l : List (String × Bool)) :
    ∀ (acc : List (String × Option Bool)) (f : String), f ∉ l.map Prod.fst →
      lookupA (l.foldl buildFlagStep acc) f = lookupA acc f := by
  induction l with
  | nil => intro acc f _; rfl
  | cons nb rest ih =>
    intro acc f h
    simp only [List.map_cons, List.mem_cons] at h
    push_neg at h
    show lookupA (rest.foldl buildFlagStep (buildFlagStep acc nb)) f = _
    rw [ih _ f h.2]
    exact lookupA_setA_ne _ _ _ _ (fun hh => h.1 hh.symm)

theorem buildFlagsFold_mem (l : List (String × Bool)) :
    ∀ (acc : List (String × Option Bool)) (f : String) (b : Bool),
      (l.map Prod.fst).Nodup → (f, b) ∈ l →
      lookupA (l.foldl buildFlagStep acc) f = some (some b) := by
  induction l with
  | nil => intro acc f b _ hmem; simp at hmem
  | cons nb rest ih =>
    intro acc f b hnd hmem
    simp only [List.map_cons, List.nodup_cons] at hnd
    show lookupA (rest.foldl buildFlagStep (buildFlagStep acc nb)) f = _
    rcases List.mem_cons.mp hmem with hh | hh
    · have hrest : f ∉ rest.map Prod.fst := by
        rw [← hh] at hnd
        exact hnd.1
      rw [buildFlagsFold_not_mem rest _ f hrest]
      unfold buildFlagStep
      rw [← hh]
      exact lookupA_setA_self _ _ _
    · exact ih _ f b hnd.2 hh

/-- C6 counterexample: merging a snapshot whose only flag `g` is undeclared
ADDS `g` to the flag map (the claim says it is ignored) and drops the
declared flag `f` and its stored value entirely. -/
theorem snapshot_flags_added_counterexample :
    ("g" ∈ cfgC6.flags → False)
    ∧ (responseToLocalData sC6 respC6).flags = [("g", some true)]
    ∧ lookupA (responseToLocalData sC6 respC6).flags "f" = none
    ∧ lookupA sC6.data.flags "f" = some (some true) := by
  decide

/-- C6 amended: the tests half of the merge is defensive — snapshot tests
with names absent from the current test map are dropped, no test is added
or removed, a matching test has its weights overwritten and its variants
untouched — but the flags half is rebuilt from the snapshot alone: each
snapshot flag is recorded with its `isEnabled` (declared or not), and every
flag name absent from the snapshot (declared or not) ends up with no
binding. -/
theorem responseToLocalData_merge (s : AbbyState) (d : AbbyDataResponse) :
    (∀ t, (lookupA (responseToLocalData s d).tests t).isSome
        = (lookupA s.data.tests t).isSome)
    ∧ (∀ t e', lookupA (responseToLocalData s d).tests t = some e' →
        ∃ e, lookupA s.data.tests t = some e ∧ e'.variants = e.variants)
    ∧ ((d.tests.map Prod.fst).Nodup → ∀ t w e, (t, w) ∈ d.tests →
        lookupA s.data.tests t = some e →
        lookupA (responseToLocalData s d).tests t = some { e with weights := some w })
    ∧ ((d.flags.map Prod.fst).Nodup → ∀ f b, (f, b) ∈ d.flags →
        lookupA (responseToLocalData s d).flags f = some (some b))
    ∧ (∀ f, f ∉ d.flags.map Prod.fst →
        lookupA (responseToLocalData s d).flags f = none) := by
  refine ⟨?_, ?_, ?_, ?_, ?_⟩
  · intro t
    exact mergeSnapshotTests_isSome d.tests s.data.tests t
  · intro t e' h
    exact mergeSnapshotTests_variants d.tests s.data.tests t e' h
  · intro hnd t w e hmem he
    exact mergeSnapshotTests_weights d.tests s.data.tests t w e hnd hmem he
  · intro hnd f b hmem
    exact buildFlagsFold_mem d.flags [] f b hnd hmem
  · intro f h
    exact buildFlagsFold_not_mem d.flags [] f h

/-- Witness for the amended C6: declared test `t` gets the snapshot weights
with variants untouched, the undeclared snapshot flag `g` is added, the
undeclared snapshot test `unknown` stays absent. -/
theorem responseToLocalData_merge_witness :
    lookupA (responseToLocalData sC6w respC6w).tests "t"
        = some { variants := ["A"], weights := some [2, 1] }
    ∧ lookupA (responseToLocalData sC6w respC6w).flags "g" = some (some true)
    ∧ (lookupA (responseToLocalData sC6w respC6w).tests "unknown").isSome
        = (lookupA sC6w.data.tests "unknown").isSome :=
  ⟨(responseToLocalData_merge sC6w respC6w).2.2.1 (by decide) "t" [2, 1]
      { variants := ["A"] } (by decide) (by decide),
   (responseToLocalData_merge sC6w respC6w).2.2.2.1 (by decide) "g" true (by decide),
   (responseToLocalData_merge sC6w respC6w).1 "unknown"⟩

/-! ## C7: stickiness of an explicit flag override -/

theorem applyCookieEntry_misc (s : AbbyState) (nv : String × String) :
    (applyCookieEntry s nv).config = s.config
    ∧ (applyCookieEntry s nv).nodeEnv = s.nodeEnv
    ∧ (applyCookieEntry s nv).data = s.data := by
  unfold applyCookieEntry
  by_cases hab : strStartsWith nv.1 ABBY_AB_STORAGE_KEY = true <;>
    by_cases hff : strStartsWith nv.1 ABBY_FF_STORAGE_KEY = true <;>
    simp [hab, hff]

theorem applyCookieEntry_flagOv (s : AbbyState) (nv : String × String) (f : String)
    (h : ¬(strStartsWith nv.1 ABBY_FF_STORAGE_KEY = true ∧
        replaceFirst nv.1 (ABBY_FF_STORAGE_KEY ++ s.config.projectId ++ "_") = f)) :
    lookupA (applyCookieEntry s nv).flagOverrides f = lookupA s.flagOverrides f := by
  unfold applyCookieEntry
  by_cases hff : strStartsWith nv.1 ABBY_FF_STORAGE_KEY = true
  · have hkey : replaceFirst nv.1 (ABBY_FF_STORAGE_KEY ++ s.config.projectId ++ "_") ≠ f :=
      fun hk => h ⟨hff, hk⟩
    by_cases hab : strStartsWith nv.1 ABBY_AB_STORAGE_KEY = true <;>
      simp only [hab, hff, if_true, if_false] <;>
      exact lookupA_setA_ne _ _ _ _ hkey
  · by_cases hab : strStartsWith nv.1 ABBY_AB_STORAGE_KEY = true <;>
      simp [hab, hff]

theorem applyCookieEntries_flagOv (L : List (String × String)) :
    ∀ (s : AbbyState) (f : String),
      (∀ nv ∈ L, ¬(strStartsWith nv.1 ABBY_FF_STORAGE_KEY = true ∧
          replaceFirst nv.1 (ABBY_FF_STORAGE_KEY ++ s.config.projectId ++ "_") = f)) →
      lookupA (L.foldl applyCookieEntry s).flagOverrides f = lookupA s.flagOverrides f
      ∧ (L.foldl applyCookieEntry s).config = s.config := by
  induction L with
  | nil => intro s f _; exact ⟨rfl, rfl⟩
  | cons nv rest ih =>
    intro s f h
    obtain ⟨hc, -, -⟩ := applyCookieEntry_misc s nv
    have h1 := applyCookieEntry_flagOv s nv f (h nv (List.mem_cons_self _ _))
    have hrest : ∀ nv2 ∈ rest,
        ¬(strStartsWith nv2.1 ABBY_FF_STORAGE_KEY = true ∧
          replaceFirst nv2.1
            (ABBY_FF_STORAGE_KEY ++ (applyCookieEntry s nv).config.projectId ++ "_") = f) := by
      intro nv2 hm
      rw [hc]
      exact h nv2 (List.mem_cons_of_mem _ hm)
    obtain ⟨h2, h3⟩ := ih (applyCookieEntry s nv) f hrest
    exact ⟨h2.trans h1, h3.trans hc⟩

theorem setLocalOverrides_flagOv (s : AbbyState) (c f : String)
    (h : cookieTouchesFlag s.config.projectId f c = false) :
    lookupA (setLocalOverrides s c).flagOverrides f = lookupA s.flagOverrides f
    ∧ (setLocalOverrides s c).config = s.config := by
  apply applyCookieEntries_flagOv
  intro nv hm hcontra
  unfold cookieTouchesFlag at h
  rw [List.any_eq_false] at h
  exact h nv hm (by simp [hcontra.1, hcontra.2])

theorem updateFlag_effect (s : AbbyState) (n : String) (v : Bool) (s' : AbbyState)
    (h : updateFlag s n v = some s') :
    (∀ f, lookupA s'.flagOverrides f = lookupA (setA s.flagOverrides n v) f)
    ∧ s'.config = s.config := by
  unfold updateFlag at h
  have fr := notifyListeners_frame _ _ h
  exact ⟨fun f => by rw [fr.flagOv], fr.config⟩

theorem updateLocalVariant_flagOv (s : AbbyState) (k v : String) (s' : AbbyState)
    (h : updateLocalVariant s k v = some s') :
    s'.flagOverrides = s.flagOverrides ∧ s'.config = s.config := by
  unfold updateLocalVariant at h
  have fr := notifyListeners_frame _ _ h
  exact ⟨fr.flagOv, fr.config⟩

theorem init_flagOv (s : AbbyState) (d : AbbyDataResponse) (c : Option String)
    (f : String) (ld : LocalData) (s' : AbbyState)
    (h : init s d c = some (ld, s'))
    (hc : ∀ str, c = some str → cookieTouchesFlag s.config.projectId f str = false) :
    lookupA s'.flagOverrides f = lookupA s.flagOverrides f ∧ s'.config = s.config := by
  unfold init at h
  cases hn : notifyListeners { s with data := responseToLocalData s d } with
  | none => simp [hn] at h
  | some s2 =>
    simp only [hn] at h
    have f1 := notifyListeners_frame _ _ hn
    cases c with
    | none =>
      obtain ⟨f2, -⟩ := getProjectData_frame s2 ld s' h
      constructor
      · rw [f2.flagOv, f1.flagOv]
      · rw [f2.config, f1.config]
    | some str =>
      obtain ⟨f2, -⟩ := getProjectData_frame _ ld s' h
      have hpid : s2.config.projectId = s.config.projectId := by rw [f1.config]
      obtain ⟨hso, hsoc⟩ := setLocalOverrides_flagOv s2 str f (by rw [hpid]; exact hc str rfl)
      constructor
      · rw [f2.flagOv, hso, f1.flagOv]
      · rw [f2.config, hsoc, f1.config]

theorem applyOp_preserves (op : Op) (s s' : AbbyState) (f : String)
    (hok : opOk s.config.projectId f op = true)
    (h : applyOp s op = some s') :
    lookupA s'.flagOverrides f = lookupA s.flagOverrides f ∧ s'.config = s.config := by
  cases op with
  | updFlag n v =>
    have hne : n ≠ f := by
      simpa [opOk] using hok
    obtain ⟨he, hc⟩ := updateFlag_effect s n v s' h
    exact ⟨(he f).trans (lookupA_setA_ne _ _ _ _ hne), hc⟩
  | updVariant k v =>
    obtain ⟨he, hc⟩ := updateLocalVariant_flagOv s k v s' h
    exact ⟨by rw [he], hc⟩
  | initOp d c =>
    simp only [applyOp] at h
    cases hi : init s d c with
    | none => rw [hi] at h; exact absurd h (by simp)
    | some p =>
      rw [hi] at h
      simp at h
      subst h
      refine init_flagOv s d c f p.1 p.2 (by rw [← hi]) ?_
      intro str hstr
      subst hstr
      simpa [opOk] using hok
  | ingest c =>
    simp only [applyOp, Option.some.injEq] at h
    subst h
    exact setLocalOverrides_flagOv s c f (by simpa [opOk] using hok)

theorem applyOps_preserves (ops : List Op) :
    ∀ (s s' : AbbyState) (f : String),
      (∀ op ∈ ops, opOk s.config.projectId f op = true) →
      applyOps s ops = some s' →
      lookupA s'.flagOverrides f = lookupA s.flagOverrides f ∧ s'.config = s.config := by
  induction ops with
  | nil =>
    intro s s' f _ h
    simp only [applyOps, Option.some.injEq] at h
    subst h
    exact ⟨rfl, rfl⟩
  | cons op rest ih =>
    intro s s' f hok h
    unfold applyOps at h
    cases ha : applyOp s op with
    | none => simp [ha] at h
    | some s1 =>
      simp only [ha, Option.some_bind] at h
      obtain ⟨h1, hc1⟩ := applyOp_preserves op s s1 f (hok op (List.mem_cons_self _ _)) ha
      have hok' : ∀ op2 ∈ rest, opOk s1.config.projectId f op2 = true := by
        intro op2 hm
        rw [hc1]
        exact hok op2 (List.mem_cons_of_mem _ hm)
      obtain ⟨h2, hc2⟩ := ih s1 s' f hok' h
      exact ⟨h2.trans h1, hc2.trans hc1⟩

/-- C7: after `updateFlag("f", true)`, every subsequent resolution of `f`
returns `true` across any sequence of public operations that does not
override `f` again (no `updateFlag` on `f`, no cookie ingestion writing
`f`), regardless of the remote snapshots ingested via `init`. -/
theorem updateFlag_sticky (s : AbbyState) (f : String) (ops : List Op) (s1 s2 : AbbyState)
    (h1 : updateFlag s f true = some s1)
    (hops : ∀ op ∈ ops, opOk s.config.projectId f op = true)
    (h2 : applyOps s1 ops = some s2) :
    getFeatureFlag s2 f = true := by
  obtain ⟨he, hc⟩ := updateFlag_effect s f true s1 h1
  have hov1 : lookupA s1.flagOverrides f = some true := by
    rw [he f]
    exact lookupA_setA_self _ _ _
  have hops1 : ∀ op ∈ ops, opOk s1.config.projectId f op = true := by
    intro op hm
    rw [hc]
    exact hops op hm
  obtain ⟨h3, -⟩ := applyOps_preserves ops s1 s2 f hops1 h2
  exact getFeatureFlag_of_override s2 f true (h3.trans hov1)

/-- Witness for C7: the override survives a snapshot ingestion that stores
`f = false` (with a cookie overriding a different flag), an `updateFlag` on
another flag, and a variant override. -/
theorem updateFlag_sticky_witness : getFeatureFlag sC7two "f" = true :=
  updateFlag_sticky sC7zero "f" opsC7 sC7one sC7two (by decide) (by decide) (by decide)

/-! ## C8: notification delivery -/

/-- C8 counterexample: with two registered listeners and no persistent
storage, one notification delivers DIFFERENT resolved snapshots to the two
listeners (selected variants `A` and `B`): the resolved state is recomputed
— and re-randomized — once per listener, not computed once per
notification. -/
theorem notify_differs_counterexample :
    ((notifyLoop sC8.listeners sC8).map (fun p =>
        p.1.map (fun d => (lookupA d.tests "test").bind TestEntry.selectedVariant)))
      = some [some "A", some "B"]
    ∧ ((some "A" : Option String) = some "B" → False) := by
  decide

/-- C8 amended: delivery is synchronous and exhaustive — one notification
produces exactly one snapshot per registered listener, none skipped — but
the resolved state is recomputed once per listener (`getProjectData` runs
inside the loop), so listeners can observe different snapshots. -/
theorem notify_exhaustive (n : Nat) (s : AbbyState) (ds : List LocalData) (s' : AbbyState)
    (h : notifyLoop n s = some (ds, s')) : ds.length = n := by
  induction n generalizing s ds s' with
  | zero =>
    simp only [notifyLoop, Option.some.injEq, Prod.mk.injEq] at h
    rw [← h.1]
    rfl
  | succ n ih =>
    unfold notifyLoop at h
    cases hg : getProjectData s with
    | none => simp [hg] at h
    | some p =>
      obtain ⟨d1, s1⟩ := p
      simp only [hg] at h
      cases hr : notifyLoop n s1 with
      | none => simp [hr] at h
      | some q =>
        obtain ⟨ds2, s2⟩ := q
        simp only [hr, Option.some.injEq, Prod.mk.injEq] at h
        rw [← h.1]
        simp [ih s1 ds2 s2 hr]

/-- Witness for the amended C8: the two-listener notification on `sC8`
delivers exactly two snapshots. -/
theorem notify_exhaustive_witness : notifyC8.1.length = 2 :=
  notify_exhaustive 2 sC8 notifyC8.1 notifyC8.2 (by decide)

/-! ## C9: getProjectData is not a pure read -/

/-- C9 counterexample: `getProjectData` overwrites the engine's stored flag
value in place — the declared flag's stored `null` becomes its resolved
`false`. -/
theorem getProjectData_mutates_counterexample :
    sC9.data.flags = [("f", none)]
    ∧ (getProjectData sC9).map (fun p => p.2.data.flags) = some [("f", some false)]
    ∧ (((none : Option Bool) = some false) → False) := by
  decide

theorem resolveFlagsLoop_not_mem (ks : List String) :
    ∀ (s : AbbyState) (f : String), f ∉ ks →
      lookupA (resolveFlagsLoop ks s).data.flags f = lookupA s.data.flags f := by
  induction ks with
  | nil => intro s f _; rfl
  | cons k rest ih =>
    intro s f h
    simp only [List.mem_cons] at h
    push_neg at h
    unfold resolveFlagsLoop
    rw [ih _ f h.2]
    exact lookupA_setA_ne _ _ _ _ (fun hh => h.1 hh.symm)

theorem resolveFlagsLoop_values (ks : List String) :
    ∀ (s : AbbyState), ks.Nodup → (∀ k ∈ ks, k ∈ s.data.flags.map Prod.fst) →
      ∀ f ∈ ks, lookupA (resolveFlagsLoop ks s).data.flags f
        = some (some (getFeatureFlag s f)) := by
  induction ks with
  | nil => intro s _ _ f hf; simp at hf
  | cons k rest ih =>
    intro s hnd hks f hf
    simp only [List.nodup_cons] at hnd
    unfold resolveFlagsLoop
    rcases List.mem_cons.mp hf with hh | hh
    · subst hh
      rw [resolveFlagsLoop_not_mem rest _ f hnd.1]
      exact lookupA_setA_self _ _ _
    · have hne : k ≠ f := fun hk => hnd.1 (by rw [hk]; exact hh)
      have hgff : getFeatureFlag
          { s with data :=
              { s.data with flags := setA s.data.flags k (some (getFeatureFlag s k)) } } f
          = getFeatureFlag s f :=
        getFeatureFlag_congr s _ f rfl rfl rfl (lookupA_setA_ne _ _ _ _ hne)
      rw [← hgff]
      refine ih _ hnd.2 ?_ f hh
      intro k2 hm
      have hk : k ∈ s.data.flags.map Prod.fst := hks k (List.mem_cons_self _ _)
      show k2 ∈ (setA s.data.flags k (some (getFeatureFlag s k))).map Prod.fst
      rw [map_fst_setA_of_mem _ _ _ hk]
      exact hks k2 (List.mem_cons_of_mem _ hm)

/-- C9 amended: `getProjectData` is NOT a pure derivation over untouched
state: it writes every flag's resolved boolean back over the engine's
stored value (computed against the pre-call state), records selected
variants into the test map and may persist fresh selections; the returned
snapshot IS the mutated stored data.  Overrides, config, environment,
variants and weights survive (the `Frame`). -/
theorem getProjectData_writes_back (s : AbbyState) (d : LocalData) (s' : AbbyState)
    (hnd : (s.data.flags.map Prod.fst).Nodup)
    (h : getProjectData s = some (d, s')) :
    Frame s s' ∧ d = s'.data
    ∧ ∀ f ∈ s.data.flags.map Prod.fst,
        lookupA s'.data.flags f = some (some (getFeatureFlag s f)) := by
  obtain ⟨fr, hdd⟩ := getProjectData_frame s d s' h
  refine ⟨fr, hdd, ?_⟩
  unfold getProjectData at h
  cases h1 : resolveTestsLoop (s.data.tests.map Prod.fst) s with
  | none => simp [h1] at h
  | some s1 =>
    simp only [h1, Option.some.injEq, Prod.mk.injEq] at h
    obtain ⟨ft, hfl⟩ := resolveTestsLoop_frame _ _ _ h1
    intro f hf
    have hf1 : f ∈ s1.data.flags.map Prod.fst := by
      rw [hfl]
      exact hf
    have hnd1 : (s1.data.flags.map Prod.fst).Nodup := by
      rw [hfl]
      exact hnd
    have hval := resolveFlagsLoop_values (s1.data.flags.map Prod.fst) s1 hnd1
      (fun k hk => hk) f hf1
    have hgff : getFeatureFlag s1 f = getFeatureFlag s f :=
      getFeatureFlag_congr s s1 f ft.flagOv ft.nodeEnv ft.config (by rw [hfl])
    rw [← h.2, hval, hgff]

/-- Witness for the amended C9 at `sC9`: the stored value of `f` after the
call is its resolved value before the call. -/
theorem getProjectData_writes_back_witness :
    lookupA gpdC9.2.data.flags "f" = some (some (getFeatureFlag sC9 "f")) :=
  (getProjectData_writes_back sC9 gpdC9.1 gpdC9.2 (by decide) (by decide)).2.2 "f" (by decide)

/-! ## C10: updateLocalVariant persists unconditionally -/

/-- C10: `updateLocalVariant` writes the override value to the injected test
PersistentStore unconditionally, in every environment mode; consequently,
outside development mode — where the override map itself is never
consulted — every subsequent resolution of that declared test returns the
override through the persisted-value branch. -/
theorem updateLocalVariant_persists (s : AbbyState) (k v : String) (s' : AbbyState)
    (hst : s.persistantTestStorage.isSome = true)
    (h : updateLocalVariant s k v = some s') :
    s'.persistantTestStorage.bind (fun st => lookupA st k) = some v
    ∧ (s.nodeEnv ≠ "development" → ∀ e, lookupA s'.data.tests k = some e →
        getTestVariant s' k = some (v, s')) := by
  unfold updateLocalVariant at h
  have fr := notifyListeners_frame _ _ h
  obtain ⟨st, hsteq⟩ := Option.isSome_iff_exists.mp hst
  have hmid : ({ s with
      testOverrides := setA s.testOverrides k v
      persistantTestStorage := s.persistantTestStorage.map (fun st => setA st k v) }
      : AbbyState).persistantTestStorage.bind (fun st2 => lookupA st2 k) = some v := by
    simp [hsteq, lookupA_setA_self]
  have h1 : s'.persistantTestStorage.bind (fun st2 => lookupA st2 k) = some v :=
    fr.testStoreKeep k v hmid
  refine ⟨h1, ?_⟩
  intro hdev e he
  have hdev' : s'.nodeEnv ≠ "development" := by
    rw [fr.nodeEnv]
    exact hdev
  exact gtv_eq_persisted s' k e v he (by rw [if_neg hdev']) h1

/-- Witness for C10: in production mode with an injected (empty) store, the
override `B` is persisted and the next resolution returns it. -/
theorem updateLocalVariant_persists_witness :
    sC10one.persistantTestStorage.bind (fun st => lookupA st "t") = some "B"
    ∧ getTestVariant sC10one "t" = some ("B", sC10one) :=
  ⟨(updateLocalVariant_persists sC10zero "t" "B" sC10one (by decide) (by decide)).1,
   (updateLocalVariant_persists sC10zero "t" "B" sC10one (by decide) (by decide)).2
     (by decide) { variants := ["A", "B"] } (by decide)⟩
